import Mathlib

set_option linter.unusedVariables false

namespace Vinpix

/-! ## Metrics rollup: shallow embedding of src/vinpix_lambda/src/metrics.py

The DynamoDB table sb_metrics_daily is keyed by (organizationId, date).  Every
code path under scrutiny uses the single organization "default", so the store
is modelled as a map from the date to the optional day row.  The ISO
"YYYY-MM-DD" date string produced by _to_iso_date_from_epoch is in strictly
increasing bijection with the UTC day number epoch / 86400, so dates are
modelled as day numbers: equality of date strings, and the lexicographic
BETWEEN range used by the queries, coincide with equality and the closed
interval on day numbers.  (2025-03-10 is day number 20157.) -/

/-- _to_iso_date_from_epoch: epoch seconds to the UTC calendar date, as the
day number since 1970-01-01. -/
def epochDay (e : Nat) : Nat := e / 86400

/-- An order item as read by metrics.py.  Numeric prices are modelled as
integers: the source applies int(round(float(x))), which is the identity on
the integer VND amounts stored by the shop.  An absent attribute is none. -/
structure Order where
  status : String
  createdAt : Option Nat
  userId : Option String
  finalPrice : Option Int
  totalPrice : Option Int
deriving Repr, DecidableEq

/-- order.get("finalPrice", order.get("totalPrice", 0)) or 0. -/
def orderAmount (o : Order) : Int := o.finalPrice.getD (o.totalPrice.getD 0)

/-- One row of sb_metrics_daily for organization "default".  payingUsers is
optional because the attribute may be absent on a stored item (the source
reads it with if_not_exists / a .get fallback). -/
structure DayRow where
  revenue : Int
  orderCount : Nat
  payingUsers : Option Nat
  payingUserIds : List String
  updatedAt : Nat
deriving Repr, DecidableEq

/-- The metrics table, as a map from day number to the stored row. -/
def MetricsStore : Type := Nat → Option DayRow

/-- The empty metrics table. -/
def emptyMetrics : MetricsStore := fun _ => none

/-- Which backing-store calls fail during one invocation of
increment_daily_metrics_for_order: the get_item read, the put_item of a fresh
row, or the update_item of an existing row. -/
structure FailPlan where
  getFails : Bool
  putFails : Bool
  updateFails : Bool
deriving Repr, DecidableEq

/-- The run in which every store call succeeds. -/
def noFail : FailPlan := ⟨false, false, false⟩

/-- The exception raised by a failing store call. -/
inductive StoreErr
  | getFailed
  | putFailed
  | updateFailed
deriving Repr, DecidableEq

/-- The try-block body of increment_daily_metrics_for_order
(metrics.py lines 44-104).  Mirrors the source statement by statement: compute
the amount and date, bail out on a falsy userId, read the existing day row,
then either put_item a fresh row or update_item the counters (ADD revenue /
orderCount, and payingUsers plus the user-id set only for a user not yet in
the day's set).  A throw models the corresponding store call raising; note no
write precedes any throw. -/
def incrementAttempt (plan : FailPlan) (now : Nat) (o : Order) (st : MetricsStore) :
    Except StoreErr MetricsStore := do
  let amount : Int := orderAmount o
  let dateKey : Nat := epochDay (o.createdAt.getD now)
  match o.userId with
  | none => return st
  | some uid =>
    if uid = "" then
      return st
    let existing ← if plan.getFails then throw StoreErr.getFailed else pure (st dateKey)
    let payingUserIds : List String :=
      match existing with
      | some row => row.payingUserIds
      | none => []
    let isNewUserToday : Bool := decide (uid ∉ payingUserIds)
    match existing with
    | none =>
      if plan.putFails then throw StoreErr.putFailed
      let item : DayRow :=
        if isNewUserToday then
          { revenue := amount, orderCount := 1, payingUsers := some 1,
            payingUserIds := [uid], updatedAt := now }
        else
          { revenue := amount, orderCount := 1, payingUsers := none,
            payingUserIds := [], updatedAt := now }
      return fun d => if d = dateKey then some item else st d
    | some row =>
      if plan.updateFails then throw StoreErr.updateFailed
      let row2 : DayRow :=
        { revenue := row.revenue + amount,
          orderCount := row.orderCount + 1,
          payingUsers :=
            if isNewUserToday then some (row.payingUsers.getD 0 + 1) else row.payingUsers,
          payingUserIds :=
            if isNewUserToday then uid :: row.payingUserIds else row.payingUserIds,
          updatedAt := now }
      return fun d => if d = dateKey then some row2 else st d

/-- increment_daily_metrics_for_order (metrics.py lines 39-107).  The result
models what the caller observes: a normal return carrying the table state, or
a propagated exception.  The catch-all except clause turns every failure of
the body into a normal return; since no store write precedes a throw in the
body, the table is unchanged on the error path. -/
def increment_daily_metrics_for_order (plan : FailPlan) (now : Nat) (o : Order)
    (st : MetricsStore) : Except StoreErr MetricsStore :=
  match incrementAttempt plan now o st with
  | Except.ok st2 => Except.ok st2
  | Except.error _ => Except.ok st

/-- The table state after a call to increment_daily_metrics_for_order. -/
def runIncrement (plan : FailPlan) (now : Nat) (o : Order) (st : MetricsStore) :
    MetricsStore :=
  match increment_daily_metrics_for_order plan now o st with
  | Except.ok st2 => st2
  | Except.error _ => st

/-- One point of the series returned by get_metrics_series. -/
structure SeriesPoint where
  date : Nat
  revenue : Int
  orderCount : Nat
  payingUsers : Nat
deriving Repr, DecidableEq

/-- get_metrics_series (metrics.py lines 110-137): every stored day row with
start_date <= date <= end_date, ascending by date (the query enumerates the
key range in ascending order, so the final sort of the source is the
identity).  payingUsers falls back to the cardinality of payingUserIds when
the count attribute is absent. -/
def get_metrics_series (startDay endDay : Nat) (st : MetricsStore) : List SeriesPoint :=
  (List.range' startDay (endDay + 1 - startDay)).filterMap fun d =>
    (st d).map fun row =>
      { date := d, revenue := row.revenue, orderCount := row.orderCount,
        payingUsers := row.payingUsers.getD row.payingUserIds.length }

/-- Result of get_revenue_month_compare.  Revenue totals are exact integers;
deltaPct is the exact rational value of the float expression of the source
(the claims only exercise the branches that assign the literals 100.0 / 0.0). -/
structure MonthCompare where
  currentMonthRevenue : Int
  previousMonthRevenue : Int
  delta : Int
  deltaPct : ℚ
deriving Repr, DecidableEq

/-- The sum_range helper of get_revenue_month_compare: total revenue of the
stored rows in the inclusive day range. -/
def sumRange (s e : Nat) (st : MetricsStore) : Int :=
  ((List.range' s (e + 1 - s)).filterMap st).foldl (fun acc row => acc + row.revenue) 0

/-- get_revenue_month_compare (metrics.py lines 140-181).  The UTC month
bounds computed by _month_bounds_utc from the wall clock are passed in as day
numbers; the function sums the two ranges and derives delta and deltaPct,
with the zero-baseline convention of line 167. -/
def get_revenue_month_compare (curStart curEnd prevStart prevEnd : Nat)
    (st : MetricsStore) : MonthCompare :=
  let curTotal := sumRange curStart curEnd st
  let prevTotal := sumRange prevStart prevEnd st
  let delta := curTotal - prevTotal
  let deltaPct : ℚ :=
    if 0 < prevTotal then (delta : ℚ) / (prevTotal : ℚ) * 100
    else if 0 < curTotal then 100 else 0
  { currentMonthRevenue := curTotal, previousMonthRevenue := prevTotal,
    delta := delta, deltaPct := deltaPct }

/-- Per-day accumulator of rebuild_metrics_range (one value of the by_day
dict: running revenue, order count and the set of truthy payer ids). -/
structure DayAgg where
  revenue : Int
  orderCount : Nat
  users : List String
deriving Repr, DecidableEq

/-- Lookup in the by_day dict, modelled as an association list keyed by the
day number. -/
def lookupDay : List (Nat × DayAgg) → Nat → Option DayAgg
  | [], _ => none
  | p :: rest, d => if p.1 = d then some p.2 else lookupDay rest d

/-- by_day[day] = agg: overwrite the existing entry or append a new one. -/
def setDay : List (Nat × DayAgg) → Nat → DayAgg → List (Nat × DayAgg)
  | [], d, a => [(d, a)]
  | p :: rest, d, a => if p.1 = d then (d, a) :: rest else p :: setDay rest d a

/-- The conditional set.add of a truthy user id (if user_id:
by_day[day]["users"].add(user_id)); the Python set is modelled as the list of
members in first-insertion order. -/
def addUser (users : List String) (uid : Option String) : List String :=
  match uid with
  | some u => if u ≠ "" ∧ u ∉ users then users ++ [u] else users
  | none => users

/-- The per-order mutation of one by_day entry (metrics.py lines 584-587):
add the final price to the revenue, count the order, add a truthy payer. -/
def aggStep (prev : DayAgg) (o : Order) : DayAgg :=
  { revenue := prev.revenue + orderAmount o,
    orderCount := prev.orderCount + 1,
    users := addUser prev.users o.userId }

/-- The body of the per-item aggregation loop of rebuild_metrics_range
(metrics.py lines 577-587): read or default the day entry, mutate, store. -/
def aggAddOrder (byDay : List (Nat × DayAgg)) (o : Order) : List (Nat × DayAgg) :=
  let day := epochDay (o.createdAt.getD 0)
  setDay byDay day
    (aggStep ((lookupDay byDay day).getD { revenue := 0, orderCount := 0, users := [] }) o)

/-- The fresh item written for one rebuilt day (metrics.py lines 604-615). -/
def mkRebuiltRow (now : Nat) (a : DayAgg) : DayRow :=
  { revenue := a.revenue, orderCount := a.orderCount,
    payingUsers := some a.users.length, payingUserIds := a.users, updatedAt := now }

/-- rebuild_metrics_range (metrics.py lines 479-621).  The GSI query selects
the completed orders whose createdAt lies between the epoch bounds of the
inclusive day range (its untyped-filter fallback selects the same set); the
batch delete removes every queried day row of the range from the metrics
table; the final loop writes one rebuilt row per by_day key. -/
def rebuildOrderPred (startEpoch endEpoch : Nat) (o : Order) : Bool :=
  o.status == "completed" && decide (startEpoch ≤ o.createdAt.getD 0)
    && decide (o.createdAt.getD 0 ≤ endEpoch)

/-- rebuild_metrics_range, continued: filter the log, aggregate per day,
clear the old rows of the range, write the rebuilt rows. -/
def rebuild_metrics_range (startDay endDay : Nat) (orders : List Order) (now : Nat)
    (st : MetricsStore) : MetricsStore :=
  let startEpoch := startDay * 86400
  let endEpoch := (endDay + 1) * 86400 - 1
  let items := orders.filter (rebuildOrderPred startEpoch endEpoch)
  let byDay := items.foldl aggAddOrder []
  let cleared : MetricsStore := fun d => if startDay ≤ d ∧ d ≤ endDay then none else st d
  byDay.foldl (fun acc p => fun d => if d = p.1 then some (mkRebuiltRow now p.2) else acc d)
    cleared

/-- Specification-side (follows the words of the rebuild claim): the
completed orders of the log whose creation instant falls on UTC day d. -/
def completedOnDay (orders : List Order) (d : Nat) : List Order :=
  orders.filter fun o => o.status == "completed" && decide (epochDay (o.createdAt.getD 0) = d)

/-- Specification-side: the distinct truthy paying-user ids of a list of
orders, in first-occurrence order. -/
def distinctUsers (orders : List Order) : List String :=
  orders.foldl (fun acc o => addUser acc o.userId) []

/-- Specification-side (follows the words of the rebuild claim): the day row
that aggregating the order log fresh yields for day d — revenue the sum of
the final prices, order count the number of orders, paying users the distinct
payer ids — or none when the day has no completed order. -/
def freshDayRow (orders : List Order) (now d : Nat) : Option DayRow :=
  let its := completedOnDay orders d
  if its.isEmpty then none
  else some
    { revenue := (its.map orderAmount).sum, orderCount := its.length,
      payingUsers := some (distinctUsers its).length,
      payingUserIds := distinctUsers its, updatedAt := now }

/-! ## Wrong-answer tracker: shallow embedding of
src/vinpix_lambda/src/question_uploader.py (lines 987-1254)

The sb_question_stats table is keyed by (bucket, question_id) where
question_id is the string "{question_set_id}#{questionIndex}".  The rendering
(set id, index) to that string is injective (the index prints without a '#'
and the parser takes the part after the last '#'), so the sort key is
modelled as the pair (qsetId, qIndex).  The table is a list of rows with
pairwise distinct keys; update_item is an upsert on the first matching row. -/

/-- One entry of a question's answerMapping list, as read by
record_wrong_answers.  correctValue carries the already-stringified scalar
value (the json.dumps branch for composite values also yields a string and is
subsumed); an absent or null value is none and renders as "". -/
structure AnswerMapping where
  correctValue : Option String
  explanation : String
  selector : String
deriving Repr, DecidableEq

/-- One question of the question set JSON fetched from S3. -/
structure Question where
  htmlContent : String
  answerMapping : List AnswerMapping
deriving Repr, DecidableEq

/-- One row of sb_question_stats.  bucket and (qsetId, qIndex) form the key;
qsetId and qIndex double as the question_set_id / question_index attributes,
which every write sets to exactly the key-derived values. -/
structure StatRow where
  bucket : String
  qsetId : String
  qIndex : Nat
  title : String
  collectionId : String
  collectionName : String
  html : String
  correctAnswer : String
  explanation : String
  selector : String
  updatedAt : Nat
  wrongCountNum : Nat
  wrongCount : String
deriving Repr, DecidableEq

/-- The sb_question_stats table. -/
abbrev StatsStore := List StatRow

/-- str(n).zfill(12): the zero-padded string mirror of the counter. -/
def zfill12 (n : Nat) : String :=
  let s := toString n
  String.mk (List.replicate (12 - s.length) '0') ++ s

/-- get_item on sb_question_stats by full key. -/
def findStat (st : StatsStore) (b qs : String) (qi : Nat) : Option StatRow :=
  st.find? fun r => decide (r.bucket = b ∧ r.qsetId = qs ∧ r.qIndex = qi)

/-- The row created by the first upsert for a key: every snapshot attribute
is written (the if_not_exists branch fires on an absent row) and the counter
becomes if_not_exists(wrongCountNum, 0) + 1 = 1, mirrored zero-padded. -/
def freshStat (b qs : String) (qi : Nat)
    (title cid cname html ans expl sel : String) (now : Nat) : StatRow :=
  { bucket := b, qsetId := qs, qIndex := qi, title := title, collectionId := cid,
    collectionName := cname, html := html, correctAnswer := ans, explanation := expl,
    selector := sel, updatedAt := now, wrongCountNum := 1, wrongCount := zfill12 1 }

/-- The effect of a repeat upsert on an existing row: every if_not_exists
snapshot attribute keeps its stored value, updatedAt refreshes, the counter
increments by one and its zero-padded mirror is recomputed from the numeric
value read back. -/
def bumpStat (now : Nat) (r : StatRow) : StatRow :=
  { r with
    updatedAt := now,
    wrongCountNum := r.wrongCountNum + 1,
    wrongCount := zfill12 (r.wrongCountNum + 1) }

/-- The update_item upsert of record_wrong_answers (question_uploader.py
lines 1121-1149) for bucket b and question (qs, qi), with the trailing
wrongCount-mirror update (lines 1151-1162) folded in. -/
def upsertWrong (b qs : String) (qi : Nat)
    (title cid cname html ans expl sel : String) (now : Nat) :
    StatsStore → StatsStore
  | [] => [freshStat b qs qi title cid cname html ans expl sel now]
  | r :: rest =>
    if r.bucket = b ∧ r.qsetId = qs ∧ r.qIndex = qi then
      bumpStat now r :: rest
    else
      r :: upsertWrong b qs qi title cid cname html ans expl sel now rest

/-- The numeric wrong-answer counter currently stored for a bucket and
question key, 0 when the row is absent. -/
def wrongCountOf (st : StatsStore) (b qs : String) (qi : Nat) : Nat :=
  ((findStat st b qs qi).map StatRow.wrongCountNum).getD 0

/-- Python str.strip() of the question_set_id validation, implemented over
the char list so that it evaluates by kernel reduction. -/
def stripStr (s : String) : String :=
  String.mk (((s.data.dropWhile Char.isWhitespace).reverse.dropWhile
    Char.isWhitespace).reverse)

/-- Decimal digits to a number; none when the list is empty or holds a
non-digit. -/
def digitsToNat? (l : List Char) : Option Nat :=
  l.foldl (fun acc c =>
      acc.bind fun n => if c.isDigit then some (n * 10 + (c.toNat - 48)) else none)
    (if l.isEmpty then none else some 0)

/-- Python int(...) on a numeric string: an optional leading minus sign then
decimal digits. -/
def parseIntChars : List Char → Option Int
  | [] => none
  | c :: cs =>
    if c = '-' then (digitsToNat? cs).map fun n => -(n : Int)
    else (digitsToNat? (c :: cs)).map fun n => (n : Int)

/-- int(raw.split('#')[-1]) with the continue-on-failure of the source: the
characters after the last '#' (the whole string when no '#' occurs) parsed
as an integer; none models the ValueError that makes the source skip the
id. -/
def parseQuestionIdx (raw : String) : Option Int :=
  parseIntChars ((raw.data.reverse.takeWhile (fun ch => !(ch == '#'))).reverse)

/-- The body part of record_wrong_answers and get_top_wrong_questions that is
clock-dependent (_now_periods, lines 987-993) is passed in as the nowTs /
weekPeriod / monthPeriod parameters; the three bucket keys of lines 1073-1077
are derived from them. -/
def nowBuckets (weekPeriod monthPeriod : String) : List String :=
  ["ALL", "WEEK:" ++ weekPeriod, "MONTH:" ++ monthPeriod]

/-- The caller-visible summary of record_wrong_answers. -/
structure RecordResult where
  updated : Nat
  updatedIds : List (String × Nat)
  statusCode : Nat
deriving Repr, DecidableEq

/-- record_wrong_answers (question_uploader.py lines 1016-1182).  The S3
question-set fetch is modelled by the questions / title parameters, and the
collection-name enrichment by collectionId / collectionName.  For each raw
id: parse the index, skip out-of-range indices and questions whose
answerMapping does not have exactly one entry, then upsert the snapshot and
counter into each of the three active buckets.  In this model every store
write succeeds, so the error list stays empty and the status is 200 when at
least one id was recorded, 500 otherwise.  recordStep is the body of the
per-raw-id loop (lines 1079-1177). -/
def recordStep (questionSetId : String) (questions : List Question) (title : String)
    (collectionId collectionName : String) (nowTs : Nat) (buckets : List String)
    (acc : StatsStore × Nat × List (String × Nat)) (raw : String) :
    StatsStore × Nat × List (String × Nat) :=
  match parseQuestionIdx raw with
  | none => acc
  | some qidx =>
    if qidx < 0 ∨ (questions.length : Int) ≤ qidx then acc
    else
      let i := qidx.toNat
      let q := questions.getD i { htmlContent := "", answerMapping := [] }
      if q.answerMapping.length ≠ 1 then acc
      else
        let m := q.answerMapping.headD
          { correctValue := none, explanation := "", selector := "" }
        let ans := m.correctValue.getD ""
        let st2 := buckets.foldl
          (fun s b => upsertWrong b questionSetId i title collectionId collectionName
            q.htmlContent ans m.explanation m.selector nowTs s) acc.1
        (st2, acc.2.1 + 1, acc.2.2 ++ [(questionSetId, i)])

/-- record_wrong_answers, continued: the whole operation folds recordStep
over the submitted raw ids after the two request-validation guards. -/
def record_wrong_answers (questionSetId : String) (questionIds : List String)
    (questions : List Question) (title : String)
    (collectionId collectionName : String) (nowTs : Nat)
    (weekPeriod monthPeriod : String) (st : StatsStore) : StatsStore × RecordResult :=
  if stripStr questionSetId = "" then (st, ⟨0, [], 400⟩)
  else if questionIds.isEmpty then (st, ⟨0, [], 400⟩)
  else
    let out := questionIds.foldl
      (recordStep questionSetId questions title collectionId collectionName nowTs
        (nowBuckets weekPeriod monthPeriod)) (st, 0, [])
    (out.1, { updated := out.2.1, updatedIds := out.2.2,
              statusCode := if 0 < out.2.1 then 200 else 500 })

/-- Stable insertion into a list sorted descending, le a b meaning "a sorts
at or below b" (models one step of Python list.sort(key, reverse=True)). -/
def insertDesc (le : StatRow → StatRow → Bool) (r : StatRow) :
    List StatRow → List StatRow
  | [] => [r]
  | x :: xs => if le r x then x :: insertDesc le r xs else r :: x :: xs

/-- Descending sort by the given comparison. -/
def sortDesc (le : StatRow → StatRow → Bool) (l : List StatRow) : List StatRow :=
  l.foldr (insertDesc le) []

/-- One row of the response of get_top_wrong_questions. -/
structure TopQuestion where
  questionId : String
  questionSetId : String
  questionIndex : Nat
  title : String
  wrongCount : Nat
  html : String
  correctAnswer : String
  explanation : String
  selector : String
  collectionId : String
  collectionName : String
deriving Repr, DecidableEq

/-- The response row built from a stored item (question_uploader.py lines
1233-1251); wrongCountNum is always present in this model, so it is the
preferred numeric value. -/
def mkTopQuestion (r : StatRow) : TopQuestion :=
  { questionId := r.qsetId ++ "#" ++ toString r.qIndex, questionSetId := r.qsetId,
    questionIndex := r.qIndex, title := r.title, wrongCount := r.wrongCountNum,
    html := r.html, correctAnswer := r.correctAnswer, explanation := r.explanation,
    selector := r.selector, collectionId := r.collectionId,
    collectionName := r.collectionName }

/-- get_top_wrong_questions (question_uploader.py lines 1185-1254).  indexOk
= false models the GSI query raising (index unavailable), which takes the
except-branch scan.  The GSI path returns the bucket partition ordered by the
string mirror wrongCount descending, server-capped at eff_limit = 10
regardless of the caller's limit; when it yields no rows, the in-try scan
fallback sorts by wrongCountNum descending and truncates to the same cap, as
does the except-branch scan. -/
def get_top_wrong_questions (indexOk : Bool) (period : String) (limit : Nat)
    (weekPeriod monthPeriod : String) (st : StatsStore) : List TopQuestion :=
  let bucket :=
    if period = "ALL" then "ALL"
    else if period = "MONTH" then "MONTH:" ++ monthPeriod
    else "WEEK:" ++ weekPeriod
  let effLimit := 10
  let part := st.filter fun r => r.bucket == bucket
  let byNum := sortDesc (fun a b => decide (a.wrongCountNum ≤ b.wrongCountNum)) part
  let items :=
    if indexOk then
      let qItems := (sortDesc (fun a b => decide (a.wrongCount ≤ b.wrongCount)) part).take
        effLimit
      if qItems.isEmpty then byNum.take effLimit else qItems
    else byNum.take 10
  items.map mkTopQuestion

/-! ### Concrete fixtures used by the witness theorems -/

/-- Day number of 2025-03-10 UTC (epoch 1741564800 / 86400). -/
def day20250310 : Nat := 20157

/-- A completed order of user u1 over 100000 VND placed on 2025-03-10. -/
def orderA : Order :=
  { status := "completed", createdAt := some 1741564800, userId := some "u1",
    finalPrice := some 100000, totalPrice := none }

/-- A later completed order of user u1 over 50000 VND on the same day. -/
def orderB : Order :=
  { status := "completed", createdAt := some 1741568400, userId := some "u1",
    finalPrice := some 50000, totalPrice := none }

/-- An order carrying a price but no user id. -/
def orderNoUser : Order :=
  { status := "completed", createdAt := some 1741564800, userId := none,
    finalPrice := some 100000, totalPrice := none }

/-- A metrics table holding one day row with revenue 500 on day 100. -/
def storeOneDay : MetricsStore := fun d =>
  if d = 100 then
    some { revenue := 500, orderCount := 1, payingUsers := some 1,
           payingUserIds := ["u1"], updatedAt := 0 }
  else none

/-- A single-mapping sample question. -/
def sampleQuestion : Question :=
  { htmlContent := "<p>Q0</p>",
    answerMapping := [{ correctValue := some "B", explanation := "why", selector := "s0" }] }

/-- A two-mapping (multi-part) sample question. -/
def multiQuestion : Question :=
  { htmlContent := "<p>Q1</p>",
    answerMapping := [{ correctValue := some "A", explanation := "", selector := "a" },
                      { correctValue := some "C", explanation := "", selector := "b" }] }

/-- The sample question set: index 0 single-mapping, index 1 multi-part. -/
def sampleQuestions : List Question := [sampleQuestion, multiQuestion]

/-- The paying-users invariant of one day row: the stored payingUsers count
equals the cardinality of the stored payingUserIds set. -/
def dayRowInv (row : DayRow) : Prop :=
  row.payingUsers = some row.payingUserIds.length

/-- The invariant holds of every stored day row (absent rows hold
trivially). -/
def metricsInv (st : MetricsStore) : Prop :=
  ∀ d row, st d = some row → dayRowInv row

/-! ## Supporting lemmas -/

theorem length_insertDesc (le : StatRow → StatRow → Bool) (r : StatRow)
    (l : List StatRow) : (insertDesc le r l).length = l.length + 1 := by
  induction l with
  | nil => rfl
  | cons x xs ih => by_cases h : le r x <;> simp [insertDesc, h, ih]

theorem length_sortDesc (le : StatRow → StatRow → Bool) (l : List StatRow) :
    (sortDesc le l).length = l.length := by
  induction l with
  | nil => rfl
  | cons x xs ih =>
    simp only [sortDesc, List.foldr_cons] at *
    rw [length_insertDesc, ih, List.length_cons]

theorem findStat_cons (r : StatRow) (st : StatsStore) (b qs : String) (qi : Nat) :
    findStat (r :: st) b qs qi =
      if r.bucket = b ∧ r.qsetId = qs ∧ r.qIndex = qi then some r
      else findStat st b qs qi := by
  by_cases hk : r.bucket = b ∧ r.qsetId = qs ∧ r.qIndex = qi <;>
    simp [findStat, List.find?, hk]

theorem findStat_upsert_self {b qs : String} {qi : Nat}
    {t c cn h a e s : String} {now : Nat} (st : StatsStore) :
    findStat (upsertWrong b qs qi t c cn h a e s now st) b qs qi =
      some ((findStat st b qs qi).elim (freshStat b qs qi t c cn h a e s now)
        (bumpStat now)) := by
  induction st with
  | nil => simp [upsertWrong, findStat, List.find?, freshStat]
  | cons r rest ih =>
    by_cases hk : r.bucket = b ∧ r.qsetId = qs ∧ r.qIndex = qi
    · simp [upsertWrong, hk, findStat_cons, bumpStat]
    · simp [upsertWrong, hk, findStat_cons, ih]

theorem findStat_upsert_ne {b qs : String} {qi : Nat} {b2 qs2 : String} {qi2 : Nat}
    {t c cn h a e s : String} {now : Nat} (st : StatsStore)
    (hne : ¬(b2 = b ∧ qs2 = qs ∧ qi2 = qi)) :
    findStat (upsertWrong b2 qs2 qi2 t c cn h a e s now st) b qs qi =
      findStat st b qs qi := by
  induction st with
  | nil => simp [upsertWrong, findStat, List.find?, freshStat, hne]
  | cons r rest ih =>
    by_cases hk : r.bucket = b2 ∧ r.qsetId = qs2 ∧ r.qIndex = qi2
    · have hr : ¬(r.bucket = b ∧ r.qsetId = qs ∧ r.qIndex = qi) := by
        rintro ⟨x1, x2, x3⟩
        exact hne ⟨hk.1.symm.trans x1, hk.2.1.symm.trans x2, hk.2.2.symm.trans x3⟩
      simp [upsertWrong, hk, findStat_cons, bumpStat, hr, hne]
    · simp [upsertWrong, hk, findStat_cons, ih]

theorem week_bucket_ne_all (w : String) : ("WEEK:" ++ w) ≠ "ALL" := by
  intro h
  have h2 := congrArg String.length h
  rw [String.length_append] at h2
  have h3 : "WEEK:".length = 5 := rfl
  have h4 : "ALL".length = 3 := rfl
  omega

theorem month_bucket_ne_all (m : String) : ("MONTH:" ++ m) ≠ "ALL" := by
  intro h
  have h2 := congrArg String.length h
  rw [String.length_append] at h2
  have h3 : "MONTH:".length = 6 := rfl
  have h4 : "ALL".length = 3 := rfl
  omega

theorem week_bucket_ne_month (w m : String) : ("WEEK:" ++ w) ≠ ("MONTH:" ++ m) := by
  intro h
  have h2 := congrArg String.data h
  simp [String.data_append] at h2

theorem findStat_record_buckets {qs : String} {qi : Nat} {t c cn h a e s : String}
    {now : Nat} (w m : String) (st : StatsStore) (b : String)
    (hb : b ∈ nowBuckets w m) :
    findStat ((nowBuckets w m).foldl
        (fun acc b2 => upsertWrong b2 qs qi t c cn h a e s now acc) st) b qs qi =
      some ((findStat st b qs qi).elim (freshStat b qs qi t c cn h a e s now)
        (bumpStat now)) := by
  have hfold : (nowBuckets w m).foldl
      (fun acc b2 => upsertWrong b2 qs qi t c cn h a e s now acc) st =
      upsertWrong ("MONTH:" ++ m) qs qi t c cn h a e s now
        (upsertWrong ("WEEK:" ++ w) qs qi t c cn h a e s now
          (upsertWrong "ALL" qs qi t c cn h a e s now st)) := rfl
  rw [hfold]
  have hb3 : b = "ALL" ∨ b = "WEEK:" ++ w ∨ b = "MONTH:" ++ m := by
    simpa [nowBuckets] using hb
  rcases hb3 with rfl | rfl | rfl
  · rw [findStat_upsert_ne _ (fun hc => month_bucket_ne_all m hc.1),
      findStat_upsert_ne _ (fun hc => week_bucket_ne_all w hc.1),
      findStat_upsert_self]
  · rw [findStat_upsert_ne _ (fun hc => week_bucket_ne_month w m hc.1.symm),
      findStat_upsert_self,
      findStat_upsert_ne _ (fun hc => week_bucket_ne_all w hc.1.symm)]
  · rw [findStat_upsert_self,
      findStat_upsert_ne _ (fun hc => week_bucket_ne_month w m hc.1),
      findStat_upsert_ne _ (fun hc => month_bucket_ne_all m hc.1.symm)]

theorem recordStep_eligible (questionSetId : String) (questions : List Question)
    (title cid cname : String) (nowTs : Nat) (buckets : List String)
    (acc : StatsStore × Nat × List (String × Nat)) (raw : String) (qidx : Int)
    (hparse : parseQuestionIdx raw = some qidx) (h0 : 0 ≤ qidx)
    (h1 : qidx < (questions.length : Int))
    (ham : (questions.getD qidx.toNat
      { htmlContent := "", answerMapping := [] }).answerMapping.length = 1) :
    recordStep questionSetId questions title cid cname nowTs buckets acc raw =
      (buckets.foldl (fun s b2 => upsertWrong b2 questionSetId qidx.toNat title cid cname
          (questions.getD qidx.toNat { htmlContent := "", answerMapping := [] }).htmlContent
          (((questions.getD qidx.toNat
              { htmlContent := "", answerMapping := [] }).answerMapping.headD
            { correctValue := none, explanation := "", selector := "" }).correctValue.getD "")
          ((questions.getD qidx.toNat
              { htmlContent := "", answerMapping := [] }).answerMapping.headD
            { correctValue := none, explanation := "", selector := "" }).explanation
          ((questions.getD qidx.toNat
              { htmlContent := "", answerMapping := [] }).answerMapping.headD
            { correctValue := none, explanation := "", selector := "" }).selector
          nowTs s) acc.1,
       acc.2.1 + 1, acc.2.2 ++ [(questionSetId, qidx.toNat)]) := by
  have hg : ¬(qidx < 0 ∨ (questions.length : Int) ≤ qidx) := by
    push_neg
    exact ⟨h0, h1⟩
  have ham2 : (questions[qidx.toNat]?.getD
      { htmlContent := "", answerMapping := [] }).answerMapping.length = 1 := by
    rw [← List.getD_eq_getElem?_getD]
    exact ham
  simp [recordStep, hparse, hg, ham]
  intro hcontr
  exact absurd ham2 hcontr

theorem runIncrement_new {u : String} {t : Nat} (now : Nat) (o : Order)
    (st : MetricsStore) (hu : o.userId = some u) (hu2 : ¬u = "")
    (ht : o.createdAt = some t) (hnone : st (epochDay t) = none) :
    runIncrement noFail now o st = fun d =>
      if d = epochDay t then
        some { revenue := orderAmount o, orderCount := 1, payingUsers := some 1,
               payingUserIds := [u], updatedAt := now }
      else st d := by
  simp [runIncrement, increment_daily_metrics_for_order, incrementAttempt, noFail,
    hu, hu2, ht, hnone, pure, Except.pure, Bind.bind, Except.bind]

theorem runIncrement_existing {u : String} {t : Nat} {row : DayRow} (now : Nat)
    (o : Order) (st : MetricsStore) (hu : o.userId = some u) (hu2 : ¬u = "")
    (ht : o.createdAt = some t) (hrow : st (epochDay t) = some row) :
    runIncrement noFail now o st = fun d =>
      if d = epochDay t then
        some { revenue := row.revenue + orderAmount o,
               orderCount := row.orderCount + 1,
               payingUsers :=
                 if u ∈ row.payingUserIds then row.payingUsers
                 else some (row.payingUsers.getD 0 + 1),
               payingUserIds :=
                 if u ∈ row.payingUserIds then row.payingUserIds
                 else u :: row.payingUserIds,
               updatedAt := now }
      else st d := by
  by_cases hmem : u ∈ row.payingUserIds <;>
    simp [runIncrement, increment_daily_metrics_for_order, incrementAttempt, noFail,
      hu, hu2, ht, hrow, hmem, pure, Except.pure, Bind.bind, Except.bind]

theorem foldIncrement_same_user_same_day (u : String) (d now : Nat)
    (orders : List Order)
    (hall : ∀ o ∈ orders, o.userId = some u ∧ o.createdAt.isSome = true ∧
      epochDay (o.createdAt.getD 0) = d)
    (hu2 : ¬u = "") :
    ∀ (st : MetricsStore) (R : Int) (C ts : Nat),
      st d = some { revenue := R, orderCount := C, payingUsers := some 1,
                    payingUserIds := [u], updatedAt := ts } →
      ∃ ts2, (orders.foldl (fun s o => runIncrement noFail now o s) st) d =
        some { revenue := R + (orders.map orderAmount).sum,
               orderCount := C + orders.length, payingUsers := some 1,
               payingUserIds := [u], updatedAt := ts2 } := by
  induction orders with
  | nil =>
    intro st R C ts hst
    exact ⟨ts, by simpa using hst⟩
  | cons o rest ih =>
    intro st R C ts hst
    obtain ⟨hu, hcsome, hcd⟩ := hall o (List.mem_cons_self o rest)
    obtain ⟨t, ht⟩ := Option.isSome_iff_exists.mp hcsome
    have htd : epochDay t = d := by
      rw [ht] at hcd
      simpa using hcd
    rw [List.foldl_cons]
    have hstep := runIncrement_existing now o st hu hu2 ht (by rw [htd]; exact hst)
    rw [htd] at hstep
    have hrest := ih (fun o2 ho2 => hall o2 (List.mem_cons_of_mem o ho2))
      (runIncrement noFail now o st) (R + orderAmount o) (C + 1) now (by
        rw [hstep]
        simp)
    obtain ⟨ts2, hts2⟩ := hrest
    refine ⟨ts2, ?_⟩
    rw [hts2]
    simp [add_assoc, add_comm, add_left_comm]

theorem metricsInv_update (st : MetricsStore) (hinv : metricsInv st) (key : Nat)
    (row : DayRow) (hrow : dayRowInv row) :
    metricsInv (fun d => if d = key then some row else st d) := by
  intro d r h
  dsimp only at h
  by_cases hd : d = key
  · rw [if_pos hd] at h
    cases h
    exact hrow
  · rw [if_neg hd] at h
    exact hinv d r h

theorem runIncrement_inv (plan : FailPlan) (now : Nat) (o : Order)
    (st : MetricsStore) (hinv : metricsInv st) :
    metricsInv (runIncrement plan now o st) := by
  cases huid : o.userId with
  | none =>
    have heq : runIncrement plan now o st = st := by
      simp [runIncrement, increment_daily_metrics_for_order, incrementAttempt, huid,
        pure, Except.pure, Bind.bind, Except.bind]
    rwa [heq]
  | some uid =>
    by_cases hu : uid = ""
    · have heq : runIncrement plan now o st = st := by
        simp [runIncrement, increment_daily_metrics_for_order, incrementAttempt, huid,
          hu, pure, Except.pure, Bind.bind, Except.bind]
      rwa [heq]
    · cases hg : plan.getFails with
      | true =>
        have heq : runIncrement plan now o st = st := by
          simp [runIncrement, increment_daily_metrics_for_order, incrementAttempt,
            huid, hu, hg, pure, Except.pure, Bind.bind, Except.bind]
        rwa [heq]
      | false =>
        cases hst : st (epochDay (o.createdAt.getD now)) with
        | none =>
          cases hp : plan.putFails with
          | true =>
            have heq : runIncrement plan now o st = st := by
              simp [runIncrement, increment_daily_metrics_for_order, incrementAttempt,
                huid, hu, hg, hp, hst, pure, Except.pure, Bind.bind, Except.bind]
            rwa [heq]
          | false =>
            have heq : runIncrement plan now o st = fun d =>
                if d = epochDay (o.createdAt.getD now) then
                  some { revenue := orderAmount o, orderCount := 1,
                         payingUsers := some 1, payingUserIds := [uid],
                         updatedAt := now }
                else st d := by
              simp [runIncrement, increment_daily_metrics_for_order, incrementAttempt,
                huid, hu, hg, hp, hst, pure, Except.pure, Bind.bind, Except.bind]
            rw [heq]
            exact metricsInv_update st hinv _ _ (by simp [dayRowInv])
        | some row0 =>
          cases hup : plan.updateFails with
          | true =>
            have heq : runIncrement plan now o st = st := by
              simp [runIncrement, increment_daily_metrics_for_order, incrementAttempt,
                huid, hu, hg, hup, hst, pure, Except.pure, Bind.bind, Except.bind]
            rwa [heq]
          | false =>
            by_cases hmem : uid ∈ row0.payingUserIds
            · have heq : runIncrement plan now o st = fun d =>
                  if d = epochDay (o.createdAt.getD now) then
                    some { revenue := row0.revenue + orderAmount o,
                           orderCount := row0.orderCount + 1,
                           payingUsers := row0.payingUsers,
                           payingUserIds := row0.payingUserIds,
                           updatedAt := now }
                  else st d := by
                simp [runIncrement, increment_daily_metrics_for_order, incrementAttempt,
                  huid, hu, hg, hup, hst, hmem, pure, Except.pure, Bind.bind,
                  Except.bind]
              rw [heq]
              refine metricsInv_update st hinv _ _ ?_
              have h2 := hinv _ row0 hst
              simpa [dayRowInv] using h2
            · have heq : runIncrement plan now o st = fun d =>
                  if d = epochDay (o.createdAt.getD now) then
                    some { revenue := row0.revenue + orderAmount o,
                           orderCount := row0.orderCount + 1,
                           payingUsers := some (row0.payingUsers.getD 0 + 1),
                           payingUserIds := uid :: row0.payingUserIds,
                           updatedAt := now }
                  else st d := by
                simp [runIncrement, increment_daily_metrics_for_order, incrementAttempt,
                  huid, hu, hg, hup, hst, hmem, pure, Except.pure, Bind.bind,
                  Except.bind]
              rw [heq]
              refine metricsInv_update st hinv _ _ ?_
              have h2 := hinv _ row0 hst
              unfold dayRowInv at h2 ⊢
              rw [h2]
              simp

theorem metricsInv_putFold (l : List (Nat × DayAgg)) (now : Nat)
    (base : MetricsStore) (hbase : metricsInv base) :
    metricsInv (l.foldl
      (fun acc p => fun d => if d = p.1 then some (mkRebuiltRow now p.2) else acc d)
      base) := by
  induction l generalizing base with
  | nil => exact hbase
  | cons p rest ih =>
    rw [List.foldl_cons]
    exact ih _ (metricsInv_update base hbase p.1 _ (by simp [dayRowInv, mkRebuiltRow]))

theorem rebuild_inv (d1 d2 : Nat) (orders : List Order) (now : Nat)
    (st : MetricsStore) (hinv : metricsInv st) :
    metricsInv (rebuild_metrics_range d1 d2 orders now st) := by
  unfold rebuild_metrics_range
  refine metricsInv_putFold _ now _ ?_
  intro d r h
  dsimp only at h
  by_cases hd : d1 ≤ d ∧ d ≤ d2
  · rw [if_pos hd] at h
    cases h
  · rw [if_neg hd] at h
    exact hinv d r h

theorem lookupDay_setDay_self (l : List (Nat × DayAgg)) (d : Nat) (a : DayAgg) :
    lookupDay (setDay l d a) d = some a := by
  induction l with
  | nil => simp [setDay, lookupDay]
  | cons p rest ih =>
    by_cases hp : p.1 = d
    · simp [setDay, lookupDay, hp]
    · simp [setDay, lookupDay, hp, ih]

theorem lookupDay_setDay_ne (l : List (Nat × DayAgg)) (d d2 : Nat) (a : DayAgg)
    (h : ¬d = d2) : lookupDay (setDay l d2 a) d = lookupDay l d := by
  have h2 : ¬d2 = d := fun hc => h hc.symm
  induction l with
  | nil => simp [setDay, lookupDay, h2]
  | cons p rest ih =>
    by_cases hp : p.1 = d2
    · simp [setDay, lookupDay, hp, h2]
    · simp [setDay, lookupDay, hp, ih]

theorem lookupDay_eq_none_of_not_mem (l : List (Nat × DayAgg)) (d : Nat)
    (h : d ∉ l.map Prod.fst) : lookupDay l d = none := by
  induction l with
  | nil => rfl
  | cons p rest ih =>
    rw [List.map_cons, List.mem_cons] at h
    push_neg at h
    have hp : ¬p.1 = d := fun hc => h.1 hc.symm
    simp [lookupDay, hp, ih h.2]

theorem mem_keys_setDay (l : List (Nat × DayAgg)) (d2 : Nat) (a : DayAgg) :
    ∀ x ∈ (setDay l d2 a).map Prod.fst, x ∈ l.map Prod.fst ∨ x = d2 := by
  induction l with
  | nil => simp [setDay]
  | cons p rest ih =>
    intro x hx
    by_cases hp : p.1 = d2
    · simp [setDay, hp] at hx
      rcases hx with hx | hx
      · exact Or.inr hx
      · exact Or.inl (by simp [hx])
    · simp [setDay, hp] at hx
      rcases hx with hx | hx
      · exact Or.inl (by simp [hx])
      · rcases ih x (by simpa using hx) with h3 | h3
        · exact Or.inl (by simp [h3])
        · exact Or.inr h3

theorem nodup_keys_setDay (l : List (Nat × DayAgg)) (d : Nat) (a : DayAgg)
    (h : (l.map Prod.fst).Nodup) : ((setDay l d a).map Prod.fst).Nodup := by
  induction l with
  | nil => simp [setDay]
  | cons p rest ih =>
    rw [List.map_cons, List.nodup_cons] at h
    by_cases hp : p.1 = d
    · rw [setDay]
      simp only [if_pos hp, List.map_cons, List.nodup_cons]
      exact ⟨hp ▸ h.1, h.2⟩
    · rw [setDay]
      simp only [if_neg hp, List.map_cons, List.nodup_cons]
      refine ⟨?_, ih h.2⟩
      intro hmem
      rcases mem_keys_setDay rest d a p.1 hmem with h3 | h3
      · exact h.1 h3
      · exact hp h3

theorem nodup_keys_aggFold (items : List Order) :
    ∀ acc : List (Nat × DayAgg), (acc.map Prod.fst).Nodup →
      ((items.foldl aggAddOrder acc).map Prod.fst).Nodup := by
  induction items with
  | nil => intro acc h; exact h
  | cons o rest ih =>
    intro acc h
    rw [List.foldl_cons]
    exact ih _ (nodup_keys_setDay _ _ _ h)

theorem putFold_apply (now : Nat) : ∀ (l : List (Nat × DayAgg)),
    (l.map Prod.fst).Nodup → ∀ (base : MetricsStore) (d : Nat),
    (l.foldl
        (fun acc p => fun d2 => if d2 = p.1 then some (mkRebuiltRow now p.2) else acc d2)
        base) d =
      match lookupDay l d with
      | some a => some (mkRebuiltRow now a)
      | none => base d := by
  intro l
  induction l with
  | nil => intro _ base d; rfl
  | cons p rest ih =>
    intro hnd base d
    rw [List.map_cons, List.nodup_cons] at hnd
    rw [List.foldl_cons, ih hnd.2]
    by_cases hd : d = p.1
    · subst hd
      rw [lookupDay_eq_none_of_not_mem rest _ hnd.1]
      simp [lookupDay]
    · have hlk : lookupDay (p :: rest) d = lookupDay rest d := by
        have h2 : ¬p.1 = d := fun hc => hd hc.symm
        simp [lookupDay, h2]
      rw [hlk]
      cases lookupDay rest d with
      | some a => rfl
      | none => simp [hd]

theorem lookupDay_foldl_agg (d : Nat) : ∀ (items : List Order)
    (acc : List (Nat × DayAgg)),
    lookupDay (items.foldl aggAddOrder acc) d =
      (items.filter fun o => decide (epochDay (o.createdAt.getD 0) = d)).foldl
        (fun oa o =>
          some (aggStep (oa.getD { revenue := 0, orderCount := 0, users := [] }) o))
        (lookupDay acc d) := by
  intro items
  induction items with
  | nil => intro acc; rfl
  | cons o rest ih =>
    intro acc
    rw [List.foldl_cons]
    by_cases hd : epochDay (o.createdAt.getD 0) = d
    · rw [ih, List.filter_cons_of_pos (by simpa using hd), List.foldl_cons]
      congr 1
      unfold aggAddOrder
      rw [hd, lookupDay_setDay_self]
    · rw [ih, List.filter_cons_of_neg (by simpa using hd)]
      congr 1
      unfold aggAddOrder
      exact lookupDay_setDay_ne acc d _ _ (fun hc => hd hc.symm)

theorem optAggFold_some (its : List Order) : ∀ a : DayAgg,
    its.foldl
      (fun oa o =>
        some (aggStep (oa.getD { revenue := 0, orderCount := 0, users := [] }) o))
      (some a) = some (its.foldl aggStep a) := by
  induction its with
  | nil => intro a; rfl
  | cons o rest ih =>
    intro a
    rw [List.foldl_cons, List.foldl_cons]
    exact ih (aggStep a o)

theorem aggFold_revenue (its : List Order) : ∀ a : DayAgg,
    (its.foldl aggStep a).revenue = a.revenue + (its.map orderAmount).sum := by
  induction its with
  | nil => intro a; simp
  | cons o rest ih =>
    intro a
    rw [List.foldl_cons, ih]
    simp [aggStep, add_assoc]

theorem aggFold_orderCount (its : List Order) : ∀ a : DayAgg,
    (its.foldl aggStep a).orderCount = a.orderCount + its.length := by
  induction its with
  | nil => intro a; simp
  | cons o rest ih =>
    intro a
    rw [List.foldl_cons, ih]
    simp [aggStep]
    omega

theorem aggFold_users (its : List Order) : ∀ a : DayAgg,
    (its.foldl aggStep a).users =
      its.foldl (fun us o => addUser us o.userId) a.users := by
  induction its with
  | nil => intro a; rfl
  | cons o rest ih =>
    intro a
    rw [List.foldl_cons, List.foldl_cons, ih]
    rfl

theorem epochDay_bounds (e d : Nat) (hd : e / 86400 = d) :
    d * 86400 ≤ e ∧ e < (d + 1) * 86400 := by
  omega

theorem epochDay_mem_range (d1 d2 e : Nat) (h1 : d1 * 86400 ≤ e)
    (h2 : e ≤ (d2 + 1) * 86400 - 1) : d1 ≤ e / 86400 ∧ e / 86400 ≤ d2 := by
  omega

theorem itemsOnDay_eq (orders : List Order) (d1 d2 d : Nat) (hd1 : d1 ≤ d)
    (hd2 : d ≤ d2) :
    ((orders.filter (rebuildOrderPred (d1 * 86400) ((d2 + 1) * 86400 - 1))).filter
        fun o => decide (epochDay (o.createdAt.getD 0) = d)) =
      completedOnDay orders d := by
  rw [List.filter_filter]
  unfold completedOnDay
  apply List.filter_congr
  intro o _
  unfold rebuildOrderPred epochDay
  by_cases hdy : o.createdAt.getD 0 / 86400 = d
  · obtain ⟨hb1, hb2⟩ := epochDay_bounds (o.createdAt.getD 0) d hdy
    have hr1 : d1 * 86400 ≤ o.createdAt.getD 0 := by
      have : d1 * 86400 ≤ d * 86400 := Nat.mul_le_mul_right 86400 hd1
      omega
    have hr2 : o.createdAt.getD 0 ≤ (d2 + 1) * 86400 - 1 := by
      have : (d + 1) * 86400 ≤ (d2 + 1) * 86400 :=
        Nat.mul_le_mul_right 86400 (by omega)
      omega
    simp [hdy, hr1, hr2]
  · simp [hdy]

theorem rebuild_apply (d1 d2 : Nat) (orders : List Order) (now : Nat)
    (st : MetricsStore) (d : Nat) :
    rebuild_metrics_range d1 d2 orders now st d =
      match lookupDay
          ((orders.filter (rebuildOrderPred (d1 * 86400)
            ((d2 + 1) * 86400 - 1))).foldl aggAddOrder []) d with
      | some a => some (mkRebuiltRow now a)
      | none => if d1 ≤ d ∧ d ≤ d2 then none else st d := by
  unfold rebuild_metrics_range
  exact putFold_apply now _ (nodup_keys_aggFold _ [] (by simp)) _ d

theorem get_metrics_series_single {row : DayRow} (d : Nat) (st : MetricsStore)
    (h : st d = some row) :
    get_metrics_series d d st =
      [{ date := d, revenue := row.revenue, orderCount := row.orderCount,
         payingUsers := row.payingUsers.getD row.payingUserIds.length }] := by
  unfold get_metrics_series
  have h1 : d + 1 - d = 1 := by omega
  rw [h1]
  simp [List.range', h]

theorem findStat_foldl_upsert_ne {qs2 : String} {qi2 : Nat} {t c cn h a e s : String}
    {now : Nat} (bs : List String) (st : StatsStore) (b qs : String) (qi : Nat)
    (hne : ¬(qs2 = qs ∧ qi2 = qi)) :
    findStat (bs.foldl (fun acc b2 => upsertWrong b2 qs2 qi2 t c cn h a e s now acc) st)
      b qs qi = findStat st b qs qi := by
  induction bs generalizing st with
  | nil => rfl
  | cons b2 rest ih =>
    rw [List.foldl_cons, ih, findStat_upsert_ne _ (fun hc => hne ⟨hc.2.1, hc.2.2⟩)]

theorem findStat_recordStep_skip (questionSetId : String) (questions : List Question)
    (title cid cname : String) (nowTs : Nat) (buckets : List String)
    (acc : StatsStore × Nat × List (String × Nat)) (raw : String) (b : String) (i : Nat)
    (ham : ¬(questions.getD i
      { htmlContent := "", answerMapping := [] }).answerMapping.length = 1) :
    findStat (recordStep questionSetId questions title cid cname nowTs buckets acc raw).1
      b questionSetId i = findStat acc.1 b questionSetId i := by
  unfold recordStep
  cases hp : parseQuestionIdx raw with
  | none => rfl
  | some qidx =>
    dsimp only
    by_cases hg : qidx < 0 ∨ (questions.length : Int) ≤ qidx
    · rw [if_pos hg]
    · rw [if_neg hg]
      by_cases ham2 : (questions.getD qidx.toNat
          { htmlContent := "", answerMapping := [] }).answerMapping.length ≠ 1
      · rw [if_pos ham2]
      · rw [if_neg ham2]
        dsimp only
        have hii : ¬(qidx.toNat = i) := by
          intro hEq
          apply ham
          rw [← hEq]
          exact not_not.mp ham2
        exact findStat_foldl_upsert_ne buckets acc.1 b questionSetId i
          (fun hc => hii hc.2)

theorem record_single_unfold (questionSetId raw : String) (questions : List Question)
    (title cid cname : String) (nowTs : Nat) (weekPeriod monthPeriod : String)
    (st : StatsStore) (hqs : ¬stripStr questionSetId = "") :
    (record_wrong_answers questionSetId [raw] questions title cid cname nowTs
        weekPeriod monthPeriod st).1 =
      (recordStep questionSetId questions title cid cname nowTs
        (nowBuckets weekPeriod monthPeriod) (st, 0, []) raw).1 := by
  simp [record_wrong_answers, hqs]

/-! ## Claim theorems (easy group) -/

/-- C4: for every period in WEEK, MONTH, ALL and every caller-requested
limit — including any limit greater than 10 — get_top_wrong_questions
returns at most 10 rows, on both the secondary-index retrieval path
(indexOk = true) and the full-scan fallback path (empty index result or
indexOk = false). -/
theorem get_top_wrong_questions_capped (indexOk : Bool) (period : String)
    (limit : Nat) (weekPeriod monthPeriod : String) (st : StatsStore) :
    (get_top_wrong_questions indexOk period limit weekPeriod monthPeriod st).length ≤ 10 := by
  unfold get_top_wrong_questions
  simp only [List.length_map]
  repeat' split
  all_goals (rw [List.length_take]; exact min_le_left _ _)

/-- C7: in get_revenue_month_compare, whenever the previous month's revenue
total is 0, the returned deltaPct equals 100 if the current month's total is
greater than 0 and equals 0 if the current month's total is also 0. -/
theorem month_compare_zero_baseline (cs ce ps pe : Nat) (st : MetricsStore)
    (h : (get_revenue_month_compare cs ce ps pe st).previousMonthRevenue = 0) :
    (get_revenue_month_compare cs ce ps pe st).deltaPct =
      if 0 < (get_revenue_month_compare cs ce ps pe st).currentMonthRevenue
      then 100 else 0 := by
  simp only [get_revenue_month_compare] at h ⊢
  rw [h]
  simp

/-- Witness for C7: a store with revenue only in the current month range
makes the previous total 0 and deltaPct exactly 100. -/
theorem month_compare_zero_baseline_witness :
    (get_revenue_month_compare 100 100 50 50 storeOneDay).deltaPct = 100 := by
  have h := month_compare_zero_baseline 100 100 50 50 storeOneDay (by decide)
  rw [h]
  decide

/-- C9: increment_daily_metrics_for_order never raises to its caller — for
every input order, every prior table state and every failure pattern of the
backing store, it returns normally (the catch-all swallows the error). -/
theorem increment_never_raises (plan : FailPlan) (now : Nat) (o : Order)
    (st : MetricsStore) :
    ∃ st2, increment_daily_metrics_for_order plan now o st = Except.ok st2 := by
  unfold increment_daily_metrics_for_order
  cases incrementAttempt plan now o st with
  | ok st2 => exact ⟨st2, rfl⟩
  | error e => exact ⟨st, rfl⟩

/-- C10: for every order whose userId is absent or empty,
increment_daily_metrics_for_order returns without performing any store
write: the table is unchanged, no row created, no counter incremented. -/
theorem increment_no_user_no_write (plan : FailPlan) (now : Nat) (o : Order)
    (st : MetricsStore) (h : o.userId = none ∨ o.userId = some "") :
    increment_daily_metrics_for_order plan now o st = Except.ok st := by
  rcases h with h | h <;>
    simp [increment_daily_metrics_for_order, incrementAttempt, h, pure, Except.pure]

/-- Witness for C10: a priced order without a user id leaves the empty table
untouched. -/
theorem increment_no_user_no_write_witness :
    increment_daily_metrics_for_order noFail 7 orderNoUser emptyMetrics =
      Except.ok emptyMetrics :=
  increment_no_user_no_write noFail 7 orderNoUser emptyMetrics (Or.inl rfl)

/-- C2: for every bucket of the call and every recorded (question_set_id,
index) pair, a repeat call to record_wrong_answers leaves every snapshot
field (html, correctAnswer, explanation, title, collectionId, collectionName,
selector) at its previously stored first-write value and increments the
numeric counter wrongCountNum by exactly 1; applied to each state of a chain
of calls, this gives the write-once snapshot and per-call +1 counter. -/
theorem record_snapshot_write_once (questionSetId raw : String)
    (questions : List Question) (title cid cname : String) (nowTs : Nat)
    (weekPeriod monthPeriod : String) (st : StatsStore) (qidx : Int) (b : String)
    (r : StatRow)
    (hqs : ¬stripStr questionSetId = "")
    (hparse : parseQuestionIdx raw = some qidx)
    (h0 : 0 ≤ qidx) (h1 : qidx < (questions.length : Int))
    (ham : (questions.getD qidx.toNat
      { htmlContent := "", answerMapping := [] }).answerMapping.length = 1)
    (hb : b ∈ nowBuckets weekPeriod monthPeriod)
    (hfound : findStat st b questionSetId qidx.toNat = some r) :
    ∃ r2, findStat (record_wrong_answers questionSetId [raw] questions title cid cname
        nowTs weekPeriod monthPeriod st).1 b questionSetId qidx.toNat = some r2 ∧
      r2.html = r.html ∧ r2.correctAnswer = r.correctAnswer ∧
      r2.explanation = r.explanation ∧ r2.title = r.title ∧
      r2.collectionId = r.collectionId ∧ r2.collectionName = r.collectionName ∧
      r2.selector = r.selector ∧ r2.wrongCountNum = r.wrongCountNum + 1 := by
  refine ⟨bumpStat nowTs r, ?_, by simp [bumpStat]⟩
  rw [record_single_unfold questionSetId raw questions title cid cname nowTs
      weekPeriod monthPeriod st hqs,
    recordStep_eligible questionSetId questions title cid cname nowTs
      (nowBuckets weekPeriod monthPeriod) (st, 0, []) raw qidx hparse h0 h1 ham]
  dsimp only
  rw [findStat_record_buckets weekPeriod monthPeriod st b hb, hfound]
  rfl

/-- Witness for C2: a second recording of question 0 of the sample set keeps
the first-write snapshot and bumps the counter from 1 to 2. -/
theorem record_snapshot_write_once_witness :
    ∃ r2, findStat (record_wrong_answers "qs1" ["0"] sampleQuestions "T2" "c2" "n2" 9
        "2025-W11" "2025-03"
        [freshStat "ALL" "qs1" 0 "T" "c" "n" "<p>Q0</p>" "B" "why" "s0" 5]).1
      "ALL" "qs1" 0 = some r2 ∧
      r2.html = "<p>Q0</p>" ∧ r2.correctAnswer = "B" ∧
      r2.explanation = "why" ∧ r2.title = "T" ∧
      r2.collectionId = "c" ∧ r2.collectionName = "n" ∧
      r2.selector = "s0" ∧ r2.wrongCountNum = 1 + 1 :=
  record_snapshot_write_once "qs1" "0" sampleQuestions "T2" "c2" "n2" 9
    "2025-W11" "2025-03"
    [freshStat "ALL" "qs1" 0 "T" "c" "n" "<p>Q0</p>" "B" "why" "s0" 5] 0 "ALL"
    (freshStat "ALL" "qs1" 0 "T" "c" "n" "<p>Q0</p>" "B" "why" "s0" 5)
    (by decide) (by decide) (by decide) (by decide) (by decide)
    (by simp [nowBuckets]) (by decide)

/-- C5: a single eligible wrong-answer event recorded at a known instant
increments the counter in all three buckets active at that instant — the ALL
bucket, the instant's ISO-week bucket and its ISO-month bucket — never a
strict subset of them. -/
theorem record_increments_all_buckets (questionSetId raw : String)
    (questions : List Question) (title cid cname : String) (nowTs : Nat)
    (weekPeriod monthPeriod : String) (st : StatsStore) (qidx : Int)
    (hqs : ¬stripStr questionSetId = "")
    (hparse : parseQuestionIdx raw = some qidx)
    (h0 : 0 ≤ qidx) (h1 : qidx < (questions.length : Int))
    (ham : (questions.getD qidx.toNat
      { htmlContent := "", answerMapping := [] }).answerMapping.length = 1) :
    ∀ b ∈ nowBuckets weekPeriod monthPeriod,
      wrongCountOf (record_wrong_answers questionSetId [raw] questions title cid cname
          nowTs weekPeriod monthPeriod st).1 b questionSetId qidx.toNat =
        wrongCountOf st b questionSetId qidx.toNat + 1 := by
  intro b hb
  unfold wrongCountOf
  rw [record_single_unfold questionSetId raw questions title cid cname nowTs
      weekPeriod monthPeriod st hqs,
    recordStep_eligible questionSetId questions title cid cname nowTs
      (nowBuckets weekPeriod monthPeriod) (st, 0, []) raw qidx hparse h0 h1 ham]
  dsimp only
  rw [findStat_record_buckets weekPeriod monthPeriod st b hb]
  cases hf : findStat st b questionSetId qidx.toNat with
  | none => simp [freshStat]
  | some r => simp [bumpStat]

/-- Witness for C5: one wrong answer for question 0 of the sample set on the
empty table yields counter 1 = 0 + 1 in each of the three buckets. -/
theorem record_increments_all_buckets_witness :
    wrongCountOf (record_wrong_answers "qs1" ["0"] sampleQuestions "T" "c" "n" 5
        "2025-W11" "2025-03" []).1 "ALL" "qs1" 0 =
      wrongCountOf ([] : StatsStore) "ALL" "qs1" 0 + 1 ∧
    wrongCountOf (record_wrong_answers "qs1" ["0"] sampleQuestions "T" "c" "n" 5
        "2025-W11" "2025-03" []).1 "WEEK:2025-W11" "qs1" 0 =
      wrongCountOf ([] : StatsStore) "WEEK:2025-W11" "qs1" 0 + 1 ∧
    wrongCountOf (record_wrong_answers "qs1" ["0"] sampleQuestions "T" "c" "n" 5
        "2025-W11" "2025-03" []).1 "MONTH:2025-03" "qs1" 0 =
      wrongCountOf ([] : StatsStore) "MONTH:2025-03" "qs1" 0 + 1 := by
  have h := record_increments_all_buckets "qs1" "0" sampleQuestions "T" "c" "n" 5
    "2025-W11" "2025-03" [] 0 (by decide) (by decide) (by decide) (by decide)
    (by decide)
  exact ⟨h "ALL" (by decide), h "WEEK:2025-W11" (by decide),
    h "MONTH:2025-03" (by decide)⟩

/-- C1: for every nonempty sequence of qualifying paid orders — same truthy
user id, creation instants on the same UTC calendar day d, starting from a
state with no row for d — processing them through
increment_daily_metrics_for_order yields a day row with payingUsers equal to
1 while revenue equals the sum of the orders' final prices and orderCount
equals the number of orders; get_metrics_series over the one-day range then
returns exactly that one point.  (The concrete witness instantiates the
2025-03-10 / 100000 + 50000 scenario.) -/
theorem same_day_payer_dedup (u : String) (hu : ¬u = "") (d now : Nat)
    (orders : List Order) (st0 : MetricsStore) (h0 : st0 d = none)
    (hne : orders ≠ [])
    (hall : ∀ o ∈ orders, o.userId = some u ∧ o.createdAt.isSome = true ∧
      epochDay (o.createdAt.getD 0) = d) :
    ∃ ts, (orders.foldl (fun s o => runIncrement noFail now o s) st0) d =
        some { revenue := (orders.map orderAmount).sum,
               orderCount := orders.length, payingUsers := some 1,
               payingUserIds := [u], updatedAt := ts } ∧
      get_metrics_series d d
          (orders.foldl (fun s o => runIncrement noFail now o s) st0) =
        [{ date := d, revenue := (orders.map orderAmount).sum,
           orderCount := orders.length, payingUsers := 1 }] := by
  cases orders with
  | nil => exact absurd rfl hne
  | cons o rest =>
    obtain ⟨huo, hcsome, hcd⟩ := hall o (List.mem_cons_self o rest)
    obtain ⟨t, ht⟩ := Option.isSome_iff_exists.mp hcsome
    have htd : epochDay t = d := by
      rw [ht] at hcd
      simpa using hcd
    rw [List.foldl_cons]
    have hstep := runIncrement_new now o st0 huo hu ht (by rw [htd]; exact h0)
    rw [htd] at hstep
    obtain ⟨ts2, hts2⟩ := foldIncrement_same_user_same_day u d now rest
      (fun o2 ho2 => hall o2 (List.mem_cons_of_mem o ho2)) hu
      (runIncrement noFail now o st0) (orderAmount o) 1 now
      (by rw [hstep]; simp)
    have hrow : (rest.foldl (fun s o2 => runIncrement noFail now o2 s)
        (runIncrement noFail now o st0)) d =
        some { revenue := ((o :: rest).map orderAmount).sum,
               orderCount := (o :: rest).length, payingUsers := some 1,
               payingUserIds := [u], updatedAt := ts2 } := by
      rw [hts2]
      simp [add_comm]
    refine ⟨ts2, hrow, ?_⟩
    rw [get_metrics_series_single d _ hrow]
    simp

/-- Witness for C1: two completed orders of user u1, final prices 100000 and
50000, both on 2025-03-10 (day 20157), produce one series point with
revenue 150000, orderCount 2, payingUsers 1. -/
theorem same_day_payer_dedup_witness :
    ∃ ts, (([orderA, orderB]).foldl (fun s o => runIncrement noFail 999 o s)
          emptyMetrics) day20250310 =
        some { revenue := 150000, orderCount := 2, payingUsers := some 1,
               payingUserIds := ["u1"], updatedAt := ts } ∧
      get_metrics_series day20250310 day20250310
          (([orderA, orderB]).foldl (fun s o => runIncrement noFail 999 o s)
            emptyMetrics) =
        [{ date := day20250310, revenue := 150000, orderCount := 2,
           payingUsers := 1 }] := by
  obtain ⟨ts, h1, h2⟩ := same_day_payer_dedup "u1" (by decide) day20250310 999
    [orderA, orderB] emptyMetrics rfl (by decide) (by decide)
  refine ⟨ts, ?_, ?_⟩
  · simpa [orderA, orderB, orderAmount] using h1
  · simpa [orderA, orderB, orderAmount] using h2

/-- C6: a question whose answerMapping has 0 entries or 2 or more entries is
never written by record_wrong_answers: for every call on its question set —
no matter how many raw ids the call carries or how often its index repeats —
the stored row for that question is unchanged in every bucket; chaining over
calls, it is never created nor counted. -/
theorem record_never_tracks_non_single (questionSetId : String)
    (questionIds : List String) (questions : List Question) (title cid cname : String)
    (nowTs : Nat) (weekPeriod monthPeriod : String) (st : StatsStore) (i : Nat)
    (ham : ¬(questions.getD i
      { htmlContent := "", answerMapping := [] }).answerMapping.length = 1) :
    ∀ b, findStat (record_wrong_answers questionSetId questionIds questions title cid
        cname nowTs weekPeriod monthPeriod st).1 b questionSetId i =
      findStat st b questionSetId i := by
  intro b
  unfold record_wrong_answers
  by_cases h1 : stripStr questionSetId = ""
  · rw [if_pos h1]
  · rw [if_neg h1]
    by_cases h2 : questionIds.isEmpty = true
    · rw [if_pos h2]
    · rw [if_neg h2]
      dsimp only
      have hfold : ∀ (ids : List String) (acc : StatsStore × Nat × List (String × Nat)),
          findStat ((ids.foldl (recordStep questionSetId questions title cid cname nowTs
              (nowBuckets weekPeriod monthPeriod)) acc).1) b questionSetId i =
            findStat acc.1 b questionSetId i := by
        intro ids
        induction ids with
        | nil => intro acc; rfl
        | cons rawId rest ih =>
          intro acc
          rw [List.foldl_cons, ih,
            findStat_recordStep_skip questionSetId questions title cid cname nowTs
              (nowBuckets weekPeriod monthPeriod) acc rawId b i ham]
      exact hfold questionIds (st, 0, [])

/-- C3: after rebuild_metrics_range(d1, d2) completes, the day rows stored
for dates in the inclusive range equal exactly the per-day aggregation
(revenue sum, order count, distinct paying users) computed fresh from the
completed orders of the log for that range — independent of whatever day
rows existed before, every one of which is deleted — while rows outside the
range are untouched. -/
theorem rebuild_reconciles (d1 d2 : Nat) (orders : List Order) (now : Nat)
    (st : MetricsStore) :
    (∀ d, d1 ≤ d → d ≤ d2 →
      rebuild_metrics_range d1 d2 orders now st d = freshDayRow orders now d) ∧
    (∀ d, d < d1 ∨ d2 < d →
      rebuild_metrics_range d1 d2 orders now st d = st d) := by
  constructor
  · intro d hd1 hd2
    rw [rebuild_apply, lookupDay_foldl_agg, itemsOnDay_eq orders d1 d2 d hd1 hd2]
    unfold freshDayRow
    cases hits : completedOnDay orders d with
    | nil => simp [lookupDay, hd1, hd2]
    | cons o rest =>
      rw [List.foldl_cons]
      have hinit : (some (aggStep ((lookupDay ([] : List (Nat × DayAgg)) d).getD
          { revenue := 0, orderCount := 0, users := [] }) o)) =
          some (aggStep { revenue := 0, orderCount := 0, users := [] } o) := rfl
      rw [hinit, optAggFold_some]
      have hA : rest.foldl aggStep (aggStep { revenue := 0, orderCount := 0, users := [] } o) =
          (o :: rest).foldl aggStep { revenue := 0, orderCount := 0, users := [] } := by
        rw [List.foldl_cons]
      rw [hA]
      simp [mkRebuiltRow, aggFold_revenue, aggFold_orderCount, aggFold_users,
        distinctUsers, aggStep]
      try omega
  · intro d hd
    rw [rebuild_apply, lookupDay_foldl_agg]
    have hfil : ((orders.filter (rebuildOrderPred (d1 * 86400)
        ((d2 + 1) * 86400 - 1))).filter
          fun o => decide (epochDay (o.createdAt.getD 0) = d)) = [] := by
      apply List.filter_eq_nil_iff.mpr
      intro o ho
      have hp := (List.mem_filter.mp ho).2
      unfold rebuildOrderPred at hp
      simp only [Bool.and_eq_true, decide_eq_true_eq] at hp
      obtain ⟨hday1, hday2⟩ := epochDay_mem_range d1 d2 (o.createdAt.getD 0)
        hp.1.2 hp.2
      simp only [decide_eq_true_eq]
      unfold epochDay
      omega
    rw [hfil]
    have hnone : lookupDay ([] : List (Nat × DayAgg)) d = none := rfl
    rw [hnone]
    have hif : ¬(d1 ≤ d ∧ d ≤ d2) := by omega
    simp [hif]

/-- Witness for C3: rebuilding days 20157-20158 from the two sample orders
produces exactly the fresh aggregation on day 20157 and leaves the
out-of-range row of day 100 untouched. -/
theorem rebuild_reconciles_witness :
    rebuild_metrics_range 20157 20158 [orderA, orderB] 5 storeOneDay 20157 =
      freshDayRow [orderA, orderB] 5 20157 ∧
    rebuild_metrics_range 20157 20158 [orderA, orderB] 5 storeOneDay 100 =
      storeOneDay 100 := by
  have h := rebuild_reconciles 20157 20158 [orderA, orderB] 5 storeOneDay
  exact ⟨h.1 20157 (by decide) (by decide), h.2 100 (Or.inl (by decide))⟩

/-- C8: the invariant payingUsers = |payingUserIds| holds for every day row
at all times: it holds of the absent-row (empty) state, and starting from
any table where it holds, every execution of
increment_daily_metrics_for_order (under any store-failure pattern) and of
rebuild_metrics_range preserves it. -/
theorem paying_users_matches_id_set (st : MetricsStore) (hinv : metricsInv st) :
    metricsInv emptyMetrics ∧
    (∀ plan now o, metricsInv (runIncrement plan now o st)) ∧
    (∀ d1 d2 orders now, metricsInv (rebuild_metrics_range d1 d2 orders now st)) :=
  ⟨fun d row h => by simp [emptyMetrics] at h,
   fun plan now o => runIncrement_inv plan now o st hinv,
   fun d1 d2 orders now => rebuild_inv d1 d2 orders now st hinv⟩

/-- Witness for C8: from the empty table, both one increment and one rebuild
yield tables satisfying the invariant. -/
theorem paying_users_matches_id_set_witness :
    metricsInv (runIncrement noFail 999 orderA emptyMetrics) ∧
    metricsInv (rebuild_metrics_range 20157 20158 [orderA] 5 emptyMetrics) := by
  have hempty : metricsInv emptyMetrics := fun d row h => by simp [emptyMetrics] at h
  have h := paying_users_matches_id_set emptyMetrics hempty
  exact ⟨h.2.1 noFail 999 orderA, h.2.2 20157 20158 [orderA] 5⟩

/-- Witness for C6: three wrong submissions of the two-mapping question at
index 1 leave the empty stats table without any row for it. -/
theorem record_never_tracks_non_single_witness :
    findStat (record_wrong_answers "qs1" ["1", "qs1#1", "1"] sampleQuestions "T" "c" "n"
        5 "2025-W11" "2025-03" []).1 "ALL" "qs1" 1 = findStat [] "ALL" "qs1" 1 :=
  record_never_tracks_non_single "qs1" ["1", "qs1#1", "1"] sampleQuestions "T" "c" "n"
    5 "2025-W11" "2025-03" [] 1 (by decide) "ALL"

end Vinpix
